import Mathlib

/-!
Verification of the ent schema-to-relational compiler and statement builder
against its specification.

The development embeds, shallowly:
* the generated edge-metadata constants of the `pet` package
  (`entc/integration/customid/ent/pet/pet.go`), translated verbatim;
* the components whose code is not part of the excerpt (Edge Resolver,
  Statement Builder, Conflict Resolution Policy, and the execution
  semantics of insert/upsert exercised by the blog-post tests), modelled
  from the specification's words; each such definition carries a doc
  comment starting with `Modelled from the spec:`.
-/

namespace Ent

/-! ## Embedding of `entc/integration/customid/ent/pet/pet.go` -/

namespace pet

/-- Label holds the string label denoting the pet type in the database. -/
def Label : String := "pet"

/-- FieldID holds the string denoting the id field in the database. -/
def FieldID : String := "id"

/-- EdgeOwner holds the string denoting the owner edge name in mutations. -/
def EdgeOwner : String := "owner"

/-- EdgeCars holds the string denoting the cars edge name in mutations. -/
def EdgeCars : String := "cars"

/-- EdgeFriends holds the string denoting the friends edge name in mutations. -/
def EdgeFriends : String := "friends"

/-- EdgeBestFriend holds the string denoting the best_friend edge name in mutations. -/
def EdgeBestFriend : String := "best_friend"

/-- UserFieldID holds the string denoting the ID field of the User. -/
def UserFieldID : String := "oid"

/-- Table holds the table name of the pet in the database. -/
def Table : String := "pets"

/-- OwnerTable is the table that holds the owner relation/edge. -/
def OwnerTable : String := "pets"

/-- OwnerInverseTable is the table name for the User entity. -/
def OwnerInverseTable : String := "users"

/-- OwnerColumn is the table column denoting the owner relation/edge. -/
def OwnerColumn : String := "user_pets"

/-- CarsTable is the table that holds the cars relation/edge. -/
def CarsTable : String := "cars"

/-- CarsInverseTable is the table name for the Car entity. -/
def CarsInverseTable : String := "cars"

/-- CarsColumn is the table column denoting the cars relation/edge. -/
def CarsColumn : String := "pet_cars"

/-- FriendsTable is the table that holds the friends relation/edge. -/
def FriendsTable : String := "pet_friends"

/-- BestFriendTable is the table that holds the best_friend relation/edge. -/
def BestFriendTable : String := "pets"

/-- BestFriendColumn is the table column denoting the best_friend relation/edge. -/
def BestFriendColumn : String := "pet_best_friend"

/-- Columns holds all SQL columns for pet fields. -/
def Columns : List String := [FieldID]

/-- ForeignKeys holds the SQL foreign-keys that are owned by the "pets"
table and are not defined as standalone fields in the schema. -/
def ForeignKeys : List String := ["pet_best_friend", "user_pets"]

/-- FriendsPrimaryKey are the table columns denoting the
primary key for the friends relation (M2M). -/
def FriendsPrimaryKey : List String := ["pet_id", "friend_id"]

/-- ValidColumn reports if the column name is valid (part of the table columns).
The Go function loops over `Columns`, returning true on a match, then over
`ForeignKeys`, and returns false otherwise. -/
def ValidColumn (column : String) : Bool :=
  (Columns.any fun c => column == c) || (ForeignKeys.any fun c => column == c)

end pet

/-! ## Components whose code is outside the excerpt, modelled from the spec -/

/-- Modelled from the spec: the typed errors surfaced at the boundary
(section 6) — `InvalidFieldError`, `AmbiguousEdgeError`,
`InvalidConflictTargetError`, `ConstraintViolationError` (carrying the
violated constraint's name) and `UnsupportedDialectError` (carrying the
offending dialect's name). -/
inductive EntError where
  | invalidFieldError (field : String)
  | ambiguousEdgeError (edge1 edge2 : String)
  | invalidConflictTargetError (column : String)
  | constraintViolationError (constraintName : String)
  | unsupportedDialectError (dialect : String)
  deriving Repr, DecidableEq

/-- Modelled from the spec: edge cardinality. -/
inductive Cardinality where
  | oneToOne
  | oneToMany
  | manyToMany
  deriving Repr, DecidableEq

/-- Modelled from the spec: an Edge is a directed relationship between two
entities, referenced by stable label, with a name (unique within its
entity's edge namespace), a cardinality, an owning-side flag, and an
optional declared inverse name. -/
structure EdgeDecl where
  name : String
  source : String
  target : String
  card : Cardinality
  owner : Bool
  inverse : Option String := none
  deriving Repr, DecidableEq

/-- Modelled from the spec: the physical layout the Edge Resolver assigns to
one edge — no storage at all (the non-owning side of a bidirectional pair),
a foreign-key column on a table referencing an entity's identifier, or a
join table with its two key columns and the entities they reference. -/
inductive Layout where
  | noStorage
  | fkColumn (table column refEntity : String)
  | joinTable (table keyCol1 keyCol2 refEntity1 refEntity2 : String)
  deriving Repr, DecidableEq

/-- Modelled from the spec: table names are derived deterministically from
entity labels ("pet" becomes "pets", "car" becomes "cars"). -/
def plural (label : String) : String := label ++ "s"

/-- Modelled from the spec: the role label for the target side of a
many-to-many edge is the singular form of the edge name
("friends" becomes "friend"). -/
def singular (s : String) : String :=
  if s.data.getLast? = some 's' then String.mk s.data.dropLast else s

/-- Modelled from the spec: the two key columns of a many-to-many join
table are derived from the edge's two role labels so that they stay
distinct even when both reference the same entity (a self-join): the source
role carries the entity label, the target role the singular edge name, and
when those coincide the target role is further qualified by the full edge
name. -/
def selfJoinCols (label edgeName : String) : String × String :=
  let c1 := label ++ "_id"
  let c2 := singular edgeName ++ "_id"
  if c2 = c1 then (c1, label ++ "_" ++ edgeName ++ "_id") else (c1, c2)

/-- Modelled from the spec (Edge Resolver, section 4.2): the ownership
decision and physical layout for one declared edge. A non-owning edge (the
inverse side of a bidirectional pair) is a pure lookup relation and
receives no storage. An owning one-to-one or one-to-many edge receives a
foreign-key column on the target entity's table, named from the owning
entity's label and the edge name — never from the target entity name
alone, so that two edges to the same target never collide. An owning
many-to-many edge receives a join table, likewise named from the owning
entity's label and the edge name, whose two key columns reference the two
endpoint entities' identifiers. -/
def resolveEdge (e : EdgeDecl) : Layout :=
  if e.owner = false then Layout.noStorage
  else
    match e.card with
    | Cardinality.manyToMany =>
        let cols := selfJoinCols e.source e.name
        Layout.joinTable (e.source ++ "_" ++ e.name) cols.1 cols.2 e.source e.target
    | _ => Layout.fkColumn (plural e.target) (e.source ++ "_" ++ e.name) e.source

/-- Modelled from the spec: the physical names a layout claims in the
database's shared namespaces — the foreign-key column it adds to an
existing table, or the join table it allocates (a join table's key columns
live inside that table's own namespace). -/
def layoutNames : Layout → List String
  | Layout.noStorage => []
  | Layout.fkColumn _ column _ => [column]
  | Layout.joinTable table _ _ _ _ => [table]

/-- The User-side owning edge "pets" (a User has many Pets); its inverse is
Pet's "owner" edge. Labels follow the generated pet.go constants. -/
def petsEdge : EdgeDecl :=
  { name := "pets", source := "user", target := "pet",
    card := Cardinality.oneToMany, owner := true }

/-- Pet's non-owning "owner" edge, the declared inverse of User's "pets". -/
def ownerEdge : EdgeDecl :=
  { name := "owner", source := "pet", target := "user",
    card := Cardinality.oneToMany, owner := false, inverse := some "pets" }

/-- Pet's owning one-to-many edge "cars". -/
def carsEdge : EdgeDecl :=
  { name := "cars", source := "pet", target := "car",
    card := Cardinality.oneToMany, owner := true }

/-- Pet's owning self-referential many-to-many edge "friends". -/
def friendsEdge : EdgeDecl :=
  { name := "friends", source := "pet", target := "pet",
    card := Cardinality.manyToMany, owner := true }

/-- Pet's owning self-referential one-to-one edge "best_friend". -/
def bestFriendEdge : EdgeDecl :=
  { name := "best_friend", source := "pet", target := "pet",
    card := Cardinality.oneToOne, owner := true }

/-- The edges of the customid integration schema that touch the Pet
entity, as reflected by the generated pet.go constants. -/
def petSchemaEdges : List EdgeDecl :=
  [petsEdge, ownerEdge, carsEdge, friendsEdge, bestFriendEdge]

/-- Modelled from the spec (Relational Graph): the foreign-key columns a
given table holds, each paired with the name of the edge it traces back
to. -/
def fkColumnsOf (table : String) (edges : List EdgeDecl) : List (String × String) :=
  edges.filterMap fun e =>
    match resolveEdge e with
    | Layout.fkColumn t c _ => if t = table then some (e.name, c) else none
    | _ => none

/-- Modelled from the spec: the per-column resolution action — take the
incoming value, keep the existing stored value, or a custom expression
combining incoming and existing values. -/
inductive ResolutionAction where
  | takeIncoming
  | keepExisting
  | custom (combine : String → String → String)

/-- Modelled from the spec: the overall mode of a Conflict Resolution
Policy. -/
inductive PolicyMode where
  | replaceAllWithIncoming
  | ignoreOnConflict
  | perColumn (actions : List (String × ResolutionAction))

/-- Modelled from the spec: the entity-side data a policy and statement are
built against — entity name, identifier column, declared unique columns and
the remaining columns. -/
structure EntitySchema where
  name : String
  idColumn : String
  uniqueColumns : List String
  otherColumns : List String

/-- Modelled from the spec: a Conflict Resolution Policy value — the
conflict-target columns and the resolution mode; created per mutation
call and scoped to one pending write. -/
structure Policy where
  targetColumns : List String
  mode : PolicyMode

/-- Modelled from the spec (Conflict Resolution Policy, section 4.5): pure
value construction that validates that every declared conflict-target
column is covered by a uniqueness constraint on the entity, failing with
`InvalidConflictTargetError` on the first uncovered column; when no target
is given, the entity's declared unique columns are the default. -/
def mkPolicy (ent : EntitySchema) (target : Option (List String)) (mode : PolicyMode) :
    Except EntError Policy :=
  let cols := target.getD ent.uniqueColumns
  match cols.find? (fun c => !(ent.uniqueColumns.contains c)) with
  | some bad => Except.error (EntError.invalidConflictTargetError bad)
  | none => Except.ok { targetColumns := cols, mode := mode }

/-- Modelled from the spec: placeholder style of a dialect. -/
inductive PlaceholderStyle where
  | positional
  | named
  deriving Repr, DecidableEq

/-- Modelled from the spec: the SQL dialect capability descriptor — a name,
whether the dialect supports a native conflict clause, its placeholder
style, and whether a write returns the affected identifier inline. -/
structure Dialect where
  name : String
  supportsNativeConflictClause : Bool
  placeholders : PlaceholderStyle
  returnsIdInline : Bool

/-- Modelled from the spec (Statement Builder, section 4.4): the statement
shapes the builder can emit. `readThenWrite` — a non-atomic
select-then-insert-or-update emulation — is representable here but is never
produced by the builder. -/
inductive Stmt where
  | plainInsert (table : String) (cols : List String)
  | insertOnConflict (table : String) (cols : List String) (policy : Policy)
  | readThenWrite (table : String) (cols : List String) (policy : Policy)

/-- Recogniser for the non-atomic emulation shape. -/
def Stmt.isReadThenWrite : Stmt → Bool
  | Stmt.readThenWrite .. => true
  | _ => false

/-- Modelled from the spec: with no policy the builder emits a plain
insert; with a policy it emits the dialect's native conflict clause when
the dialect supports one, and otherwise fails with
`UnsupportedDialectError` — it never falls back to a non-atomic
read-then-write emulation. -/
def buildStatement (d : Dialect) (ent : EntitySchema) (cols : List String)
    (policy : Option Policy) : Except EntError Stmt :=
  match policy with
  | none => Except.ok (Stmt.plainInsert (plural ent.name) cols)
  | some p =>
      if d.supportsNativeConflictClause then
        Except.ok (Stmt.insertOnConflict (plural ent.name) cols p)
      else
        Except.error (EntError.unsupportedDialectError d.name)

/-- The blog post's User entity: auto-generated integer id, unique "email"
column, plain "name" column. -/
def userSchema : EntitySchema :=
  { name := "user", idColumn := "id",
    uniqueColumns := ["email"], otherColumns := ["name"] }

/-- Modelled from the spec and the upsert blog-post tests: a stored row —
the generated identifier, the value of the entity's unique column, and the
remaining non-key column values as a column-name/value association list. -/
structure Row where
  id : Nat
  uniq : String
  rest : List (String × String)
  deriving Repr, DecidableEq

/-- Modelled from the spec: the state of one entity's table — the stored
rows and the next auto-generated identifier. -/
structure Table where
  rows : List Row
  nextId : Nat
  deriving Repr, DecidableEq

/-- Lookup of the row holding a given unique value, if any. -/
def findByUniq (t : Table) (u : String) : Option Row :=
  t.rows.find? fun r => r.uniq == u

/-- All stored rows carrying a given unique value. -/
def rowsFor (t : Table) (u : String) : List Row :=
  t.rows.filter fun r => r.uniq == u

/-- Modelled from the spec: applying one resolution action to an incoming
and an existing value. -/
def applyAction (a : ResolutionAction) (incoming existing : String) : String :=
  match a with
  | ResolutionAction.takeIncoming => incoming
  | ResolutionAction.keepExisting => existing
  | ResolutionAction.custom combine => combine incoming existing

/-- Modelled from the spec: the action declared for a column; columns not
mentioned default to take-incoming. -/
def actionFor (actions : List (String × ResolutionAction)) (col : String) :
    ResolutionAction :=
  match actions.find? (fun p => p.1 == col) with
  | some p => p.2
  | none => ResolutionAction.takeIncoming

/-- Value of a column in an association list (empty when absent). -/
def lookupCol (vals : List (String × String)) (col : String) : String :=
  match vals.find? (fun p => p.1 == col) with
  | some p => p.2
  | none => ""

/-- Modelled from the spec: fine-grained resolution — every incoming column
is resolved by its declared action against the existing stored value. -/
def mergeRest (actions : List (String × ResolutionAction))
    (incoming existing : List (String × String)) : List (String × String) :=
  incoming.map fun p => (p.1, applyAction (actionFor actions p.1) p.2 (lookupCol existing p.1))

/-- Result of executing one insert mutation: the new table state, the
returned (created or conflicting) identifier, and the affected-row count. -/
structure ExecResult where
  table : Table
  returnedId : Nat
  affected : Nat

/-- Modelled from the spec and the blog-post tests: executing one insert
mutation against a table whose entity has a single unique column. Without a
policy, a uniqueness violation surfaces as `ConstraintViolationError`
carrying the violated constraint's name and the table is unchanged. Under
ignore-on-conflict, a conflicting insert succeeds, changes nothing and
reports zero affected rows while returning the existing row's identifier.
Under replace-all-with-incoming, a conflicting insert overwrites the
conflicting row's non-key columns with the incoming values, keeps its
identifier and returns it. Under a fine-grained policy each column follows
its declared action. A non-conflicting insert appends a row with a fresh
identifier under every mode. -/
def execInsert (t : Table) (constraintName : String) (policy : Option PolicyMode)
    (u : String) (vals : List (String × String)) : Except EntError ExecResult :=
  match findByUniq t u with
  | none =>
      Except.ok { table := { rows := t.rows ++ [{ id := t.nextId, uniq := u, rest := vals }],
                             nextId := t.nextId + 1 },
                  returnedId := t.nextId, affected := 1 }
  | some existing =>
      match policy with
      | none => Except.error (EntError.constraintViolationError constraintName)
      | some PolicyMode.ignoreOnConflict =>
          Except.ok { table := t, returnedId := existing.id, affected := 0 }
      | some PolicyMode.replaceAllWithIncoming =>
          Except.ok { table := { rows := t.rows.map fun r =>
                                   if r.uniq == u then { r with rest := vals } else r,
                                 nextId := t.nextId },
                      returnedId := existing.id, affected := 1 }
      | some (PolicyMode.perColumn actions) =>
          Except.ok { table := { rows := t.rows.map fun r =>
                                   if r.uniq == u then { r with rest := mergeRest actions vals r.rest } else r,
                                 nextId := t.nextId },
                      returnedId := existing.id, affected := 1 }

end Ent

/-! ## Helper lemmas -/

namespace Ent

/-- Left cancellation for string concatenation. -/
lemma string_append_left_cancel {a b c : String} (h : a ++ b = a ++ c) : b = c := by
  have h2 := congrArg String.data h
  simp only [String.data_append] at h2
  exact String.ext (List.append_cancel_left h2)

/-- The derived name `src ++ "_" ++ n` determines the edge-name part. -/
lemma name_inj {src n1 n2 : String} (h : src ++ "_" ++ n1 = src ++ "_" ++ n2) :
    n1 = n2 := by
  have h2 := congrArg String.data h
  simp only [String.data_append, List.append_assoc] at h2
  exact String.ext (List.append_cancel_left (List.append_cancel_left h2))

/-- The two key columns of a (self-referential) many-to-many join table are
always distinct. -/
lemma selfJoinCols_ne (label edgeName : String) :
    (selfJoinCols label edgeName).1 ≠ (selfJoinCols label edgeName).2 := by
  simp only [selfJoinCols]
  split_ifs with h
  · intro hEq
    have hlen := congrArg String.length hEq
    simp only [String.length_append] at hlen
    rw [show ("_id" : String).length = 3 from rfl,
        show ("_" : String).length = 1 from rfl] at hlen
    omega
  · intro hEq
    exact h hEq.symm

/-- Every physical name a resolved layout claims is derived from the
owning entity's label and the edge name. -/
lemma layoutNames_resolveEdge (e : EdgeDecl) :
    ∀ s ∈ layoutNames (resolveEdge e), s = e.source ++ "_" ++ e.name := by
  obtain ⟨n, src, tgt, card, ow, inv⟩ := e
  intro s hs
  cases ow <;> cases card <;>
    simp [resolveEdge, layoutNames] at hs <;>
    simp [hs]

/-- Inversion for a foreign-key layout: the table, column and referenced
entity a resolved foreign-key column can have. -/
lemma resolveEdge_fkColumn {e : EdgeDecl} {t c r : String}
    (h : resolveEdge e = Layout.fkColumn t c r) :
    t = plural e.target ∧ c = e.source ++ "_" ++ e.name ∧ r = e.source := by
  obtain ⟨n, src, tgt, card, ow, inv⟩ := e
  cases ow <;> cases card <;> simp [resolveEdge] at h <;>
    exact ⟨h.1.symm, h.2.1.symm, h.2.2.symm⟩

/-- A table with no row for `u` has no row whose unique column matches `u`. -/
lemma not_uniq_of_findByUniq_none {t : Table} {u : String}
    (h : findByUniq t u = none) :
    ∀ r ∈ t.rows, (r.uniq == u) = false := by
  intro r hr
  have := List.find?_eq_none.mp h r hr
  simpa using this

/-- Rows that never match the unique value filter to the empty list. -/
lemma filter_uniq_nil {rows : List Row} {u : String}
    (h : ∀ r ∈ rows, (r.uniq == u) = false) :
    rows.filter (fun r => r.uniq == u) = [] := by
  rw [List.filter_eq_nil_iff]
  intro a ha
  simp [h a ha]

/-- Replacing the non-key columns of matching rows leaves non-matching rows
non-matching: the filter over the updated list is still empty. -/
lemma filter_map_replace_nil {rows : List Row} {u : String}
    {v : List (String × String)}
    (h : ∀ r ∈ rows, (r.uniq == u) = false) :
    ((rows.map fun r => if r.uniq == u then { r with rest := v } else r).filter
      (fun r => r.uniq == u)) = [] := by
  rw [List.filter_eq_nil_iff]
  intro a ha
  obtain ⟨r, hr, rfl⟩ := List.mem_map.mp ha
  simp [h r hr]

/-- After appending a fresh row for `u` to a table without one, the lookup
by `u` finds exactly that row. -/
lemma findByUniq_insert_self {t : Table} {u : String}
    (h : findByUniq t u = none) (idv : Nat) (v : List (String × String)) :
    findByUniq { rows := t.rows ++ [{ id := idv, uniq := u, rest := v }],
                 nextId := t.nextId + 1 } u =
      some { id := idv, uniq := u, rest := v } := by
  show (t.rows ++ [({ id := idv, uniq := u, rest := v } : Row)]).find?
      (fun r => r.uniq == u) = _
  rw [List.find?_append, show t.rows.find? (fun r => r.uniq == u) = none from h]
  simp [List.find?]

end Ent

/-! ## Claim theorems -/

namespace Ent

/-- C4: every self-referential many-to-many edge resolves to a join table
whose composite primary key consists of two distinct column names, both
referencing the same entity's identifier; in particular Pet's "friends"
edge yields join table "pet_friends" with the distinct key columns
"pet_id" and "friend_id", matching the generated constants. -/
theorem selfref_m2m_join_table_distinct_cols :
    (∀ e : EdgeDecl, e.owner = true → e.card = Cardinality.manyToMany →
      e.source = e.target →
      ∃ tbl c1 c2, resolveEdge e = Layout.joinTable tbl c1 c2 e.source e.source ∧
        c1 ≠ c2) ∧
    resolveEdge friendsEdge =
      Layout.joinTable "pet_friends" "pet_id" "friend_id" "pet" "pet" ∧
    pet.FriendsTable = "pet_friends" ∧
    pet.FriendsPrimaryKey = ["pet_id", "friend_id"] ∧
    ("pet_id" : String) ≠ "friend_id" := by
  refine ⟨?_, by decide, rfl, rfl, by decide⟩
  intro e ho hc hst
  refine ⟨e.source ++ "_" ++ e.name, (selfJoinCols e.source e.name).1,
    (selfJoinCols e.source e.name).2, ?_, selfJoinCols_ne _ _⟩
  simp [resolveEdge, ho, hc, ← hst]

/-- C4 witness: the general statement applied to the concrete "friends"
edge of the Pet entity. -/
theorem selfref_m2m_join_table_distinct_cols_witness :
    friendsEdge.owner = true ∧ friendsEdge.card = Cardinality.manyToMany ∧
    friendsEdge.source = friendsEdge.target ∧
    ∃ tbl c1 c2,
      resolveEdge friendsEdge =
        Layout.joinTable tbl c1 c2 friendsEdge.source friendsEdge.source ∧
      c1 ≠ c2 :=
  ⟨rfl, rfl, rfl, selfref_m2m_join_table_distinct_cols.1 friendsEdge rfl rfl rfl⟩

/-- C5: two distinct edges declared on the same entity toward the same
target receive disjoint physical column / join-table name sets; in
particular Pet's "friends" edge claims the join table "pet_friends" and
its "best_friend" edge the column "pet_best_friend", which differ, matching
the generated constants. -/
theorem distinct_edges_disjoint_names :
    (∀ e1 e2 : EdgeDecl, e1.source = e2.source → e1.target = e2.target →
      e1.name ≠ e2.name →
      ∀ s, s ∈ layoutNames (resolveEdge e1) → s ∉ layoutNames (resolveEdge e2)) ∧
    resolveEdge friendsEdge =
      Layout.joinTable "pet_friends" "pet_id" "friend_id" "pet" "pet" ∧
    resolveEdge bestFriendEdge = Layout.fkColumn "pets" "pet_best_friend" "pet" ∧
    layoutNames (resolveEdge friendsEdge) = ["pet_friends"] ∧
    layoutNames (resolveEdge bestFriendEdge) = ["pet_best_friend"] ∧
    pet.FriendsTable = "pet_friends" ∧
    pet.BestFriendColumn = "pet_best_friend" ∧
    ("pet_friends" : String) ≠ "pet_best_friend" := by
  refine ⟨?_, by decide, by decide, by decide, by decide, rfl, rfl, by decide⟩
  intro e1 e2 hs _ht hn s hs1 hs2
  have q1 := layoutNames_resolveEdge e1 s hs1
  have q2 := layoutNames_resolveEdge e2 s hs2
  rw [q1, hs] at q2
  exact hn (name_inj q2)

/-- C5 witness: the general disjointness applied to Pet's "friends" and
"best_friend" edges at the name "pet_friends". -/
theorem distinct_edges_disjoint_names_witness :
    friendsEdge.source = bestFriendEdge.source ∧
    friendsEdge.target = bestFriendEdge.target ∧
    friendsEdge.name ≠ bestFriendEdge.name ∧
    "pet_friends" ∈ layoutNames (resolveEdge friendsEdge) ∧
    "pet_friends" ∉ layoutNames (resolveEdge bestFriendEdge) :=
  ⟨rfl, rfl, by decide, by decide,
    distinct_edges_disjoint_names.1 friendsEdge bestFriendEdge rfl rfl
      (by decide) "pet_friends" (by decide)⟩

/-- C6: the foreign-key column of an owning one-to-one or one-to-many edge
is derived from the edge name, so two such edges with the same source and
target but different names get different columns; in particular the
resolver derives "pet_cars" from the edge "cars", "pet_best_friend" from
"best_friend" and "user_pets" from the User-side edge "pets", matching the
generated constants. -/
theorem fk_column_derived_from_edge_name :
    (∀ e1 e2 : EdgeDecl, e1.source = e2.source → e1.target = e2.target →
      e1.name ≠ e2.name →
      ∀ t1 c1 r1 t2 c2 r2,
        resolveEdge e1 = Layout.fkColumn t1 c1 r1 →
        resolveEdge e2 = Layout.fkColumn t2 c2 r2 → c1 ≠ c2) ∧
    resolveEdge carsEdge = Layout.fkColumn "cars" "pet_cars" "pet" ∧
    resolveEdge bestFriendEdge = Layout.fkColumn "pets" "pet_best_friend" "pet" ∧
    resolveEdge petsEdge = Layout.fkColumn "pets" "user_pets" "user" ∧
    pet.CarsColumn = "pet_cars" ∧ pet.CarsTable = "cars" ∧
    pet.BestFriendColumn = "pet_best_friend" ∧
    pet.OwnerColumn = "user_pets" ∧ pet.OwnerTable = "pets" ∧
    "pet_cars" = "pet" ++ "_" ++ "cars" ∧
    "pet_best_friend" = "pet" ++ "_" ++ "best_friend" ∧
    "user_pets" = "user" ++ "_" ++ "pets" := by
  refine ⟨?_, by decide, by decide, by decide, rfl, rfl, rfl, rfl, rfl,
    by decide, by decide, by decide⟩
  intro e1 e2 hs _ht hn t1 c1 r1 t2 c2 r2 h1 h2
  obtain ⟨-, hc1, -⟩ := resolveEdge_fkColumn h1
  obtain ⟨-, hc2, -⟩ := resolveEdge_fkColumn h2
  intro hEq
  rw [hc1, hc2, hs] at hEq
  exact hn (name_inj hEq)

/-- C6 witness: the general column-distinctness applied to Pet's
"best_friend" edge and a second hypothetical owning one-to-one edge
"second_best" from Pet to Pet. -/
theorem fk_column_derived_from_edge_name_witness :
    resolveEdge bestFriendEdge = Layout.fkColumn "pets" "pet_best_friend" "pet" ∧
    resolveEdge
        { name := "second_best", source := "pet", target := "pet",
          card := Cardinality.oneToOne, owner := true } =
      Layout.fkColumn "pets" "pet_second_best" "pet" ∧
    ("pet_best_friend" : String) ≠ "pet_second_best" :=
  ⟨by decide, by decide,
    fk_column_derived_from_edge_name.1 bestFriendEdge
      { name := "second_best", source := "pet", target := "pet",
        card := Cardinality.oneToOne, owner := true }
      rfl rfl (by decide) "pets" "pet_best_friend" "pet" "pets" "pet_second_best"
      "pet" (by decide) (by decide)⟩

/-- C7: a non-owning edge never implies storage on its own entity — Pet's
"owner" edge (the declared inverse of User's owning "pets" edge) resolves
to no storage — and the foreign-key columns of the "pets" table are
exactly "user_pets" and "pet_best_friend", each traceable to exactly one
owning edge, matching the generated `ForeignKeys` list. -/
theorem nonowning_edge_no_storage :
    (∀ e : EdgeDecl, e.owner = false →
      resolveEdge e = Layout.noStorage ∧ layoutNames (resolveEdge e) = []) ∧
    petsEdge.owner = true ∧ ownerEdge.owner = false ∧
    ownerEdge.inverse = some petsEdge.name ∧
    resolveEdge ownerEdge = Layout.noStorage ∧
    fkColumnsOf "pets" petSchemaEdges =
      [("pets", "user_pets"), ("best_friend", "pet_best_friend")] ∧
    ((fkColumnsOf "pets" petSchemaEdges).map Prod.snd).Nodup ∧
    ((fkColumnsOf "pets" petSchemaEdges).map Prod.snd).Perm pet.ForeignKeys := by
  refine ⟨?_, rfl, rfl, rfl, by decide, by decide, by decide, by decide⟩
  intro e ho
  have hres : resolveEdge e = Layout.noStorage := by simp [resolveEdge, ho]
  exact ⟨hres, by rw [hres]; rfl⟩

/-- C7 witness: the general no-storage statement applied to Pet's
non-owning "owner" edge. -/
theorem nonowning_edge_no_storage_witness :
    ownerEdge.owner = false ∧
    resolveEdge ownerEdge = Layout.noStorage ∧
    layoutNames (resolveEdge ownerEdge) = [] :=
  ⟨rfl, (nonowning_edge_no_storage.1 ownerEdge rfl).1,
    (nonowning_edge_no_storage.1 ownerEdge rfl).2⟩

/-- C10: `ValidColumn` is a total boolean predicate returning true for a
string exactly when it is an element of `Columns` or of `ForeignKeys`; for
the Pet entity that is precisely "id", "pet_best_friend" and "user_pets",
and it is false on every other string, including the join-table key
columns "pet_id" and "friend_id". -/
theorem validColumn_characterisation :
    (∀ column : String,
      (pet.ValidColumn column = true ↔
        (column ∈ pet.Columns ∨ column ∈ pet.ForeignKeys))) ∧
    (∀ column : String,
      (pet.ValidColumn column = true ↔
        (column = "id" ∨ column = "pet_best_friend" ∨ column = "user_pets"))) ∧
    pet.ValidColumn "pet_id" = false ∧ pet.ValidColumn "friend_id" = false := by
  refine ⟨?_, ?_, by decide, by decide⟩ <;>
    intro column <;>
    simp [pet.ValidColumn, pet.Columns, pet.ForeignKeys, pet.FieldID,
      List.any_eq_true]

/-- C1: inserting a row and then inserting again with the same unique value
under a replace-all-with-incoming policy succeeds, leaves exactly one
stored row for that unique value whose non-key columns are the second
call's values, and returns the identifier produced by the first call. -/
theorem upsert_replace_preserves_identity (t : Table) (cname u : String)
    (v1 v2 : List (String × String)) (h : findByUniq t u = none) :
    ∃ t1 id1 t2,
      execInsert t cname none u v1 = Except.ok ⟨t1, id1, 1⟩ ∧
      execInsert t1 cname (some PolicyMode.replaceAllWithIncoming) u v2 =
        Except.ok ⟨t2, id1, 1⟩ ∧
      rowsFor t2 u = [{ id := id1, uniq := u, rest := v2 }] := by
  have hall := not_uniq_of_findByUniq_none h
  have hfind1 := findByUniq_insert_self h t.nextId v1
  refine ⟨{ rows := t.rows ++ [{ id := t.nextId, uniq := u, rest := v1 }],
            nextId := t.nextId + 1 }, t.nextId,
          { rows := (t.rows ++ [({ id := t.nextId, uniq := u, rest := v1 } : Row)]).map
              (fun r : Row => if r.uniq == u then { r with rest := v2 } else r),
            nextId := t.nextId + 1 }, ?_, ?_, ?_⟩
  · simp [execInsert, h]
  · simp [execInsert, hfind1]
  · show ((t.rows ++ [({ id := t.nextId, uniq := u, rest := v1 } : Row)]).map
      (fun r : Row => if r.uniq == u then { r with rest := v2 } else r)).filter
      (fun r => r.uniq == u) = _
    rw [List.map_append, List.filter_append, filter_map_replace_nil hall]
    simp [List.filter]

/-- C1 witness: the upsert-replace round trip on an initially empty users
table, with the blog post's values. -/
theorem upsert_replace_preserves_identity_witness :
    findByUniq { rows := [], nextId := 0 } "rotem@entgo.io" = none ∧
    ∃ t1 id1 t2,
      execInsert { rows := [], nextId := 0 } "users_email" none "rotem@entgo.io"
          [("name", "Rotem Tamir")] = Except.ok ⟨t1, id1, 1⟩ ∧
      execInsert t1 "users_email" (some PolicyMode.replaceAllWithIncoming)
          "rotem@entgo.io" [("name", "Tamir, Rotem")] = Except.ok ⟨t2, id1, 1⟩ ∧
      rowsFor t2 "rotem@entgo.io" =
        [{ id := id1, uniq := "rotem@entgo.io",
           rest := [("name", "Tamir, Rotem")] }] :=
  ⟨rfl, upsert_replace_preserves_identity _ _ _ _ _ rfl⟩

/-- C2: inserting a row and then inserting again with the same unique value
and no policy fails the second call with `ConstraintViolationError`
carrying the violated constraint's name, and the first call's row is still
stored. -/
theorem insert_duplicate_constraint_violation (t : Table) (cname u : String)
    (v1 v2 : List (String × String)) (h : findByUniq t u = none) :
    ∃ t1 id1,
      execInsert t cname none u v1 = Except.ok ⟨t1, id1, 1⟩ ∧
      execInsert t1 cname none u v2 =
        Except.error (EntError.constraintViolationError cname) ∧
      ({ id := id1, uniq := u, rest := v1 } : Row) ∈ t1.rows := by
  have hfind1 := findByUniq_insert_self h t.nextId v1
  refine ⟨{ rows := t.rows ++ [{ id := t.nextId, uniq := u, rest := v1 }],
            nextId := t.nextId + 1 }, t.nextId, ?_, ?_, ?_⟩
  · simp [execInsert, h]
  · simp [execInsert, hfind1]
  · simp

/-- C2 witness: the duplicate insert failure on an initially empty users
table, with the blog post's values. -/
theorem insert_duplicate_constraint_violation_witness :
    findByUniq { rows := [], nextId := 0 } "rotem@entgo.io" = none ∧
    ∃ t1 id1,
      execInsert { rows := [], nextId := 0 } "users_email" none "rotem@entgo.io"
          [("name", "Rotem Tamir")] = Except.ok ⟨t1, id1, 1⟩ ∧
      execInsert t1 "users_email" none "rotem@entgo.io"
          [("name", "Rotem Tamir")] =
        Except.error (EntError.constraintViolationError "users_email") ∧
      ({ id := id1, uniq := "rotem@entgo.io",
         rest := [("name", "Rotem Tamir")] } : Row) ∈ t1.rows :=
  ⟨rfl, insert_duplicate_constraint_violation _ _ _ _ _ rfl⟩

/-- C3: inserting a row and then inserting again with the same unique value
under an ignore-on-conflict policy succeeds with an affected-row count of
zero and leaves the whole table — in particular the stored row — exactly
as the first call wrote it. -/
theorem upsert_ignore_zero_affected (t : Table) (cname u : String)
    (v1 v2 : List (String × String)) (h : findByUniq t u = none) :
    ∃ t1 id1,
      execInsert t cname none u v1 = Except.ok ⟨t1, id1, 1⟩ ∧
      execInsert t1 cname (some PolicyMode.ignoreOnConflict) u v2 =
        Except.ok ⟨t1, id1, 0⟩ ∧
      rowsFor t1 u = [{ id := id1, uniq := u, rest := v1 }] := by
  have hall := not_uniq_of_findByUniq_none h
  have hfind1 := findByUniq_insert_self h t.nextId v1
  refine ⟨{ rows := t.rows ++ [{ id := t.nextId, uniq := u, rest := v1 }],
            nextId := t.nextId + 1 }, t.nextId, ?_, ?_, ?_⟩
  · simp [execInsert, h]
  · simp [execInsert, hfind1]
  · show (t.rows ++ [({ id := t.nextId, uniq := u, rest := v1 } : Row)]).filter
      (fun r => r.uniq == u) = _
    rw [List.filter_append, filter_uniq_nil hall]
    simp [List.filter]

/-- C3 witness: the upsert-ignore round trip on an initially empty users
table, with the blog post's values. -/
theorem upsert_ignore_zero_affected_witness :
    findByUniq { rows := [], nextId := 0 } "rotem@entgo.io" = none ∧
    ∃ t1 id1,
      execInsert { rows := [], nextId := 0 } "users_email" none "rotem@entgo.io"
          [("name", "Rotem Tamir")] = Except.ok ⟨t1, id1, 1⟩ ∧
      execInsert t1 "users_email" (some PolicyMode.ignoreOnConflict)
          "rotem@entgo.io" [("name", "Tamir, Rotem")] = Except.ok ⟨t1, id1, 0⟩ ∧
      rowsFor t1 "rotem@entgo.io" =
        [{ id := id1, uniq := "rotem@entgo.io",
           rest := [("name", "Rotem Tamir")] }] :=
  ⟨rfl, upsert_ignore_zero_affected _ _ _ _ _ rfl⟩

/-- C8: requesting a conflict clause against a dialect whose capability
descriptor reports no native conflict clause fails with
`UnsupportedDialectError` naming the dialect, and no successful build —
with or without a policy — ever emits the non-atomic read-then-write
emulation shape. -/
theorem unsupported_dialect_error :
    (∀ (d : Dialect) (ent : EntitySchema) (cols : List String) (p : Policy),
      d.supportsNativeConflictClause = false →
      buildStatement d ent cols (some p) =
        Except.error (EntError.unsupportedDialectError d.name)) ∧
    (∀ (d : Dialect) (ent : EntitySchema) (cols : List String)
      (policy : Option Policy) (s : Stmt),
      buildStatement d ent cols policy = Except.ok s →
      s.isReadThenWrite = false) := by
  constructor
  · intro d ent cols p hd
    simp [buildStatement, hd]
  · intro d ent cols policy s hs
    cases policy with
    | none =>
        simp [buildStatement] at hs
        rw [← hs]
        rfl
    | some p =>
        cases hd : d.supportsNativeConflictClause with
        | true =>
            simp [buildStatement, hd] at hs
            rw [← hs]
            rfl
        | false =>
            simp [buildStatement, hd] at hs

/-- C8 witness: a dialect with no native conflict clause rejects a
replace-all policy on the blog post's User entity. -/
theorem unsupported_dialect_error_witness :
    (Dialect.mk "gremlin" false PlaceholderStyle.positional
        false).supportsNativeConflictClause = false ∧
    buildStatement (Dialect.mk "gremlin" false PlaceholderStyle.positional false)
        userSchema ["email", "name"]
        (some { targetColumns := ["email"],
                mode := PolicyMode.replaceAllWithIncoming }) =
      Except.error (EntError.unsupportedDialectError "gremlin") :=
  ⟨rfl, unsupported_dialect_error.1 _ _ _ _ rfl⟩

/-- C9: constructing a policy whose conflict target contains a column not
covered by a uniqueness constraint of the entity fails with
`InvalidConflictTargetError` naming an offending target column — a pure
construction failure, before any statement exists. -/
theorem invalid_conflict_target_error :
    ∀ (ent : EntitySchema) (target : List String) (mode : PolicyMode)
      (c : String),
      c ∈ target → ent.uniqueColumns.contains c = false →
      ∃ bad, bad ∈ target ∧ ent.uniqueColumns.contains bad = false ∧
        mkPolicy ent (some target) mode =
          Except.error (EntError.invalidConflictTargetError bad) := by
  intro ent target mode c hc hcc
  have hsome : (target.find? (fun x => !(ent.uniqueColumns.contains x))).isSome := by
    rw [List.find?_isSome]
    exact ⟨c, hc, by rw [hcc]; rfl⟩
  obtain ⟨bad, hbad⟩ := Option.isSome_iff_exists.mp hsome
  refine ⟨bad, List.mem_of_find?_eq_some hbad, ?_, ?_⟩
  · have := List.find?_some hbad
    simpa using this
  · simp only [mkPolicy, Option.getD_some]
    rw [hbad]

/-- C9 witness: requesting the non-unique "name" column of the blog post's
User entity as a conflict target fails. -/
theorem invalid_conflict_target_error_witness :
    ("name" ∈ ["name"]) ∧
    userSchema.uniqueColumns.contains "name" = false ∧
    ∃ bad, bad ∈ ["name"] ∧ userSchema.uniqueColumns.contains bad = false ∧
      mkPolicy userSchema (some ["name"]) PolicyMode.replaceAllWithIncoming =
        Except.error (EntError.invalidConflictTargetError bad) :=
  ⟨by decide, by decide,
    invalid_conflict_target_error userSchema ["name"]
      PolicyMode.replaceAllWithIncoming "name" (by decide) (by decide)⟩

end Ent
